import Mathlib

/-!
Shallow embedding of the OHCI host-controller core
(`src/uspace/drv/bus/usb/ohci/hc.c`) and verification of its
specification claims.

Modelling conventions:

* Memory-mapped registers are modelled as structured records, one field
  per bit or bit-field the driver touches.  The bit-layout constants of
  the registers live in `ohci_regs.h`, which is not part of the sources;
  the field decomposition follows the spec's register description
  (section 6, "Bit constants").
* Every driver operation is embedded as a pure state transformer that
  additionally emits a trace of events (guard acquisition/release,
  register writes, endpoint-list mutations, resource creation/release,
  collaborator invocations).  Temporal claims become predicates over
  these traces.
* Collaborators that are not part of the sources (endpoint allocator,
  hcd-endpoint pool, DDF functions, batch completion) are modelled as
  oracle parameters recording whether the call succeeds, exactly as the
  spec's collaborator interfaces describe them.
* Spin-waits on hardware bits (host-controller reset self-clear, SMM
  interrupt-routing clearance) are modelled by their post-state: the
  hardware has cleared the polled bit when the loop exits, which is the
  precondition under which the claims are stated.
-/

/-- Error codes of the HelenOS errno convention used by `hc.c`:
`EOK` is zero, errors are negative.  The numeric values of the error
constants are not observable in any claim; only `EOK = 0` matters. -/
def EOK : Int := 0

/-- Allocation failure (`endpoint_get` / `hcd_endpoint_assign` return NULL). -/
def ENOMEM : Int := -2

/-- No such endpoint (`usb_endpoint_manager_get_ep` returns NULL). -/
def ENOENT : Int := -3

/-- USB transfer types, as in `usb_transfer_type_t`. -/
inductive UsbTransferType where
  | isochronous
  | interrupt
  | control
  | bulk
deriving DecidableEq, Repr

/-- USB endpoint directions, as in `usb_direction_t`. -/
inductive UsbDirection where
  | dirIn
  | dirOut
  | both
deriving DecidableEq, Repr

/-- The OHCI control register, decomposed into the fields the driver
touches: the four list-enable bits PLE, IE, CLE, BLE, the 2-bit
functional-state field HCFS, the interrupt-routing bit IR, and the
remaining bits (CBSR, RWC, RWE, ...) kept abstract. -/
structure ControlReg where
  ple : Bool := false
  ie : Bool := false
  cle : Bool := false
  ble : Bool := false
  hcfs : Nat := 0
  ir : Bool := false
  rest : Nat := 0
deriving DecidableEq, Repr

/-- Functional state code RESET (2-bit HCFS field, value 0). -/
def C_HCFS_RESET : Nat := 0

/-- Functional state code RESUME (value 1). -/
def C_HCFS_RESUME : Nat := 1

/-- Functional state code OPERATIONAL (value 2). -/
def C_HCFS_OPERATIONAL : Nat := 2

/-- Functional state code SUSPEND (value 3). -/
def C_HCFS_SUSPEND : Nat := 3

/-- The OHCI command/status register: host-controller-reset HCR,
control-list-filled CLF, bulk-list-filled BLF, ownership-change-request
OCR. -/
structure CmdStatus where
  hcr : Bool := false
  clf : Bool := false
  blf : Bool := false
  ocr : Bool := false
deriving DecidableEq, Repr

/-- Interrupt bit vector, used both for the latched interrupt-status
value handed to `hc_interrupt` and for the interrupt-enable register:
scheduling overrun SO, writeback-done-head WDH, start-of-frame SF,
unrecoverable error UE, root-hub status change RHSC, master enable MI;
`rest` stands for all remaining bits (RD, FNO, OC). -/
structure IntBits where
  so : Bool := false
  wdh : Bool := false
  sf : Bool := false
  ue : Bool := false
  rhsc : Bool := false
  mi : Bool := false
  rest : Nat := 0
deriving DecidableEq, Repr

/-- Modelled from the spec: writes to the OHCI interrupt-enable register
have write-one-to-set semantics ("Write the handled-interrupt mask to
the interrupt-enable register, then additionally set the
master-interrupt-enable bit"): each bit written as 1 becomes enabled,
bits written as 0 are unchanged.  The register-level semantics is part
of the hardware, not of `hc.c`. -/
def ieWriteSet (old v : IntBits) : IntBits :=
  { so := old.so || v.so
    wdh := old.wdh || v.wdh
    sf := old.sf || v.sf
    ue := old.ue || v.ue
    rhsc := old.rhsc || v.rhsc
    mi := old.mi || v.mi
    rest := old.rest ||| v.rest }

/-- The interrupt mask written by `hc_start`:
`OHCI_USED_INTERRUPTS = I_SO | I_WDH | I_UE | I_RHSC`. -/
def OHCI_USED_INTERRUPTS : IntBits :=
  { so := true, wdh := true, ue := true, rhsc := true }

/-- The master-interrupt-enable bit `I_MI` as a written value. -/
def I_MI : IntBits := { mi := true }

/-- Shift of the frame-interval (FI) field inside the fm-interval
register.  Modelled from the spec: fm-interval "contains a
vendor-calibrated frame-interval value"; FI occupies the low 14 bits of
the register (the constant lives in `ohci_regs.h`, absent from the
sources). -/
def FMI_FI_SHIFT : Nat := 0

/-- Mask of the frame-interval (FI) field (14 bits), see
`FMI_FI_SHIFT`. -/
def FMI_FI_MASK : Nat := 0x3FFF

/-- The register window of the controller, restricted to the registers
`hc.c` reads or writes. -/
structure OhciRegs where
  revision_legacy : Bool := false
  legacy_emulation : Nat := 0
  control : ControlReg := {}
  command_status : CmdStatus := {}
  interrupt_enable : IntBits := {}
  hcca : Nat := 0
  control_head : Nat := 0
  bulk_head : Nat := 0
  control_current : Nat := 0
  bulk_current : Nat := 0
  fm_interval : Nat := 0
  periodic_start : Nat := 0
deriving DecidableEq, Repr

/-- Logical identity of an endpoint: the (address, endpoint, direction)
tuple the endpoint registrar keys on. -/
structure EpKey where
  addr : Int
  ep : Nat
  dir : UsbDirection
deriving DecidableEq, Repr

/-- One entry of the endpoint registrar: the key, the transfer type of
the endpoint (`ep->transfer_type`), and whether the endpoint has a
hardware `hcd_endpoint_t` counterpart (`hcd_endpoint_get(ep) != NULL`). -/
structure RegEntry where
  key : EpKey
  tt : UsbTransferType
  hasHcd : Bool
deriving DecidableEq, Repr

/-- A transfer batch as the scheduler sees it: an identity, the target
device address (`batch->ep->address`), the transfer type of its
endpoint, and the value of the collaborator predicate
`batch_is_complete` at reap time. -/
structure Batch where
  id : Nat
  address : Int
  tt : UsbTransferType
  complete : Bool
deriving DecidableEq, Repr

/-- A register write, carrying the written value. -/
inductive RegW where
  | control (c : ControlReg)
  | commandStatus (c : CmdStatus)
  | interruptEnable (v : IntBits)
  | hcca (v : Nat)
  | controlHead (v : Nat)
  | bulkHead (v : Nat)
  | controlCurrent (v : Nat)
  | bulkCurrent (v : Nat)
  | fmInterval (v : Nat)
  | periodicStart (v : Nat)
  | legacyEmulation (v : Nat)
deriving DecidableEq, Repr

/-- Events emitted by the embedded operations, in program order. -/
inductive Ev where
  | lock
  | unlock
  | regWrite (w : RegW)
  | listAdd (tt : UsbTransferType) (k : EpKey)
  | listRemove (tt : UsbTransferType) (k : EpKey)
  | epCreate
  | epDestroy
  | hcdAssign
  | hcdClear
  | epRegister
  | epUnregister
  | addrAlloc
  | addrBind
  | addrRelease
  | matchAdd
  | funBind
  | rhRequest (b : Nat)
  | rhInterrupt
  | batchCommit (b : Nat)
  | batchFinish (b : Nat)
  | sleep (us : Nat)
deriving DecidableEq, Repr

/-- Driver-visible state of one controller instance (`hc_t`): the
register window, the pending-batch list, the four endpoint lists, the
endpoint registrar's content, the root-hub address, and the physical
addresses published to the controller. -/
structure HcState where
  regs : OhciRegs
  pending : List Batch
  listIso : List EpKey
  listInt : List EpKey
  listCtrl : List EpKey
  listBulk : List EpKey
  registered : List RegEntry
  rh_address : Int
  hcca_pa : Nat
  ctrl_head_pa : Nat
  bulk_head_pa : Nat
deriving DecidableEq, Repr

/-- Append a key to the endpoint list of the given transfer type
(`endpoint_list_add_ep`; the spec: "insertions link at the end"). -/
def addToLists (tt : UsbTransferType) (k : EpKey) (s : HcState) : HcState :=
  match tt with
  | .isochronous => { s with listIso := s.listIso ++ [k] }
  | .interrupt => { s with listInt := s.listInt ++ [k] }
  | .control => { s with listCtrl := s.listCtrl ++ [k] }
  | .bulk => { s with listBulk := s.listBulk ++ [k] }

/-- Unlink a key from the endpoint list of the given transfer type
(`endpoint_list_remove_ep`). -/
def removeFromLists (tt : UsbTransferType) (k : EpKey) (s : HcState) : HcState :=
  match tt with
  | .isochronous => { s with listIso := s.listIso.filter (fun x => !(x == k)) }
  | .interrupt => { s with listInt := s.listInt.filter (fun x => !(x == k)) }
  | .control => { s with listCtrl := s.listCtrl.filter (fun x => !(x == k)) }
  | .bulk => { s with listBulk := s.listBulk.filter (fun x => !(x == k)) }

/-- The register half of the enqueue/dequeue switch bodies of
`hc_add_endpoint` and `hc_remove_endpoint` (the two switches perform
identical register operations around their list call; the list call is
passed in as the event `mutEv`):
control: clear CLE, mutate, zero control-current, set CLE;
bulk: clear BLE, mutate, set BLE;
isochronous/interrupt: clear PLE and IE, mutate, set PLE and IE. -/
def enqueue (mutEv : Ev) (tt : UsbTransferType) (regs : OhciRegs) :
    OhciRegs × List Ev :=
  match tt with
  | .control =>
    let c1 := { regs.control with cle := false }
    let c2 := { c1 with cle := true }
    ({ regs with control := c2, control_current := 0 },
     [Ev.regWrite (RegW.control c1), mutEv,
      Ev.regWrite (RegW.controlCurrent 0), Ev.regWrite (RegW.control c2)])
  | .bulk =>
    let c1 := { regs.control with ble := false }
    let c2 := { c1 with ble := true }
    ({ regs with control := c2 },
     [Ev.regWrite (RegW.control c1), mutEv, Ev.regWrite (RegW.control c2)])
  | .isochronous =>
    let c1 := { regs.control with ple := false, ie := false }
    let c2 := { c1 with ple := true, ie := true }
    ({ regs with control := c2 },
     [Ev.regWrite (RegW.control c1), mutEv, Ev.regWrite (RegW.control c2)])
  | .interrupt =>
    let c1 := { regs.control with ple := false, ie := false }
    let c2 := { c1 with ple := true, ie := true }
    ({ regs with control := c2 },
     [Ev.regWrite (RegW.control c1), mutEv, Ev.regWrite (RegW.control c2)])

/-- Oracle outcomes of the collaborator calls made by `hc_add_endpoint`:
whether `endpoint_get` succeeds, whether `hcd_endpoint_assign` succeeds,
and the return value of `usb_endpoint_manager_register_ep`. -/
structure AddEnv where
  ep_ok : Bool
  hcd_ok : Bool
  register_ret : Int
deriving DecidableEq, Repr

/-- Embedding of `hc_add_endpoint` (hc.c:230-279).  Creates the
endpoint record and its hardware descriptor, registers with the
endpoint registrar, and on success enqueues the descriptor into the
matching list under the enable-toggle register sequence.  Each failure
destroys what was created and returns the error.  The `mps`, `size` and
`interval` arguments are consumed only by the modelled collaborators. -/
def hc_add_endpoint (env : AddEnv) (key : EpKey) (tt : UsbTransferType)
    (mps size interval : Nat) (s : HcState) : Int × HcState × List Ev :=
  let _ := (mps, size, interval)
  if env.ep_ok = false then
    (ENOMEM, s, [])
  else if env.hcd_ok = false then
    (ENOMEM, s, [Ev.epCreate, Ev.epDestroy])
  else if env.register_ret ≠ EOK then
    (env.register_ret, s, [Ev.epCreate, Ev.hcdAssign, Ev.hcdClear, Ev.epDestroy])
  else
    let s1 := { s with registered :=
      s.registered ++ [({ key := key, tt := tt, hasHcd := true } : RegEntry)] }
    let q := enqueue (Ev.listAdd tt key) tt s1.regs
    let s2 := addToLists tt key { s1 with regs := q.1 }
    (EOK, s2, [Ev.epCreate, Ev.hcdAssign, Ev.epRegister] ++ q.2)

/-- Embedding of `hc_remove_endpoint` (hc.c:289-337).  Under the
instance guard: look the endpoint up in the registrar (`ENOENT` if
absent); if it has a hardware descriptor, dequeue it from its list
under the enable-toggle register sequence and clear it, otherwise only
log; finally unregister the endpoint.  Unregistration of a present
entry succeeds (`EOK`). -/
def hc_remove_endpoint (key : EpKey) (s : HcState) : Int × HcState × List Ev :=
  match s.registered.find? (fun e => e.key == key) with
  | none => (ENOENT, s, [Ev.lock, Ev.unlock])
  | some e =>
    let s1 := { s with registered := s.registered.filter (fun x => !(x.key == key)) }
    if e.hasHcd then
      let q := enqueue (Ev.listRemove e.tt key) e.tt s.regs
      let s2 := removeFromLists e.tt key { s1 with regs := q.1 }
      (EOK, s2, [Ev.lock] ++ q.2 ++ [Ev.hcdClear, Ev.epUnregister, Ev.unlock])
    else
      (EOK, s1, [Ev.lock, Ev.epUnregister, Ev.unlock])

/-- Oracle outcomes of the collaborator calls made by `hc_register_hub`:
the address returned by `device_keeper_get_free_address`, the oracles of
the inner `hc_add_endpoint` call, and the return values of
`ddf_fun_add_match_id` and `ddf_fun_bind`. -/
structure HubEnv where
  free_address : Int
  add_env : AddEnv
  match_ret : Int
  bind_ret : Int
deriving DecidableEq, Repr

/-- Embedding of `hc_register_hub` (hc.c:124-163).  Allocates a
full-speed address for the root hub (returning the non-positive value
on failure), stores it as the root-hub address, binds it, adds endpoint
zero with `hc_add_endpoint`, adds the hub match-id and binds the DDF
function; on failure of any of the last three steps the
`CHECK_RET_RELEASE` macro removes the endpoint with
`hc_remove_endpoint` and releases the address before returning the
error. -/
def hc_register_hub (env : HubEnv) (s : HcState) : Int × HcState × List Ev :=
  if env.free_address ≤ 0 then
    (env.free_address, s, [])
  else
    let key : EpKey := { addr := env.free_address, ep := 0, dir := UsbDirection.both }
    let s0 := { s with rh_address := env.free_address }
    let a := hc_add_endpoint env.add_env key UsbTransferType.control 64 0 0 s0
    let tr1 := [Ev.addrAlloc, Ev.addrBind] ++ a.2.2
    if a.1 ≠ EOK then
      let rm := hc_remove_endpoint key a.2.1
      (a.1, rm.2.1, tr1 ++ rm.2.2 ++ [Ev.addrRelease])
    else if env.match_ret ≠ EOK then
      let rm := hc_remove_endpoint key a.2.1
      (env.match_ret, rm.2.1, tr1 ++ [Ev.matchAdd] ++ rm.2.2 ++ [Ev.addrRelease])
    else if env.bind_ret ≠ EOK then
      let rm := hc_remove_endpoint key a.2.1
      (env.bind_ret, rm.2.1,
       tr1 ++ [Ev.matchAdd, Ev.funBind] ++ rm.2.2 ++ [Ev.addrRelease])
    else
      (EOK, a.2.1, tr1 ++ [Ev.matchAdd, Ev.funBind])

/-- Embedding of `hc_schedule` (hc.c:365-395).  A batch addressed to the
root hub is forwarded to the root-hub collaborator (`rh_request`) and
the call returns `EOK`.  Otherwise, under the guard, the batch is
appended to the pending list and committed, and for control/bulk
endpoints the matching list-filled bit of command/status is set.  Every
path returns `EOK`. -/
def hc_schedule (b : Batch) (s : HcState) : Int × HcState × List Ev :=
  if b.address = s.rh_address then
    (EOK, s, [Ev.rhRequest b.id])
  else
    let s1 := { s with pending := s.pending ++ [b] }
    match b.tt with
    | .control =>
      let cs := { s1.regs.command_status with clf := true }
      (EOK, { s1 with regs := { s1.regs with command_status := cs } },
       [Ev.lock, Ev.batchCommit b.id,
        Ev.regWrite (RegW.commandStatus cs), Ev.unlock])
    | .bulk =>
      let cs := { s1.regs.command_status with blf := true }
      (EOK, { s1 with regs := { s1.regs with command_status := cs } },
       [Ev.lock, Ev.batchCommit b.id,
        Ev.regWrite (RegW.commandStatus cs), Ev.unlock])
    | _ =>
      (EOK, s1, [Ev.lock, Ev.batchCommit b.id, Ev.unlock])

/-- Embedding of `hc_start` (hc.c:527-592).  Snapshot fm-interval;
write HCR to command/status and spin until the hardware self-clears it
(post-state: command/status with HCR clear); restore fm-interval;
publish the HCCA and the bulk and control head pointers; set all four
list-enable bits; write the handled-interrupt mask and then the
master-enable bit to interrupt-enable; set periodic-start to
`(FI / 10) * 9` of the snapshotted frame-interval field; set the
functional state to OPERATIONAL. -/
def hc_start (s : HcState) : HcState × List Ev :=
  let regs := s.regs
  let fm := regs.fm_interval
  let cs_written : CmdStatus := { hcr := true }
  let cs_after : CmdStatus := { cs_written with hcr := false }
  let regs1 := { regs with
    command_status := cs_after
    fm_interval := fm
    hcca := s.hcca_pa
    bulk_head := s.bulk_head_pa
    control_head := s.ctrl_head_pa }
  let c1 := { regs1.control with ple := true, ie := true, cle := true, ble := true }
  let ie1 := ieWriteSet regs1.interrupt_enable OHCI_USED_INTERRUPTS
  let ie2 := ieWriteSet ie1 I_MI
  let frame_length := (fm >>> FMI_FI_SHIFT) &&& FMI_FI_MASK
  let ps := (frame_length / 10) * 9
  let c2 := { c1 with hcfs := C_HCFS_OPERATIONAL }
  ({ s with regs := { regs1 with
       control := c2
       interrupt_enable := ie2
       periodic_start := ps } },
   [Ev.regWrite (RegW.commandStatus cs_written),
    Ev.regWrite (RegW.fmInterval fm),
    Ev.regWrite (RegW.hcca s.hcca_pa),
    Ev.regWrite (RegW.bulkHead s.bulk_head_pa),
    Ev.regWrite (RegW.controlHead s.ctrl_head_pa),
    Ev.regWrite (RegW.control c1),
    Ev.regWrite (RegW.interruptEnable OHCI_USED_INTERRUPTS),
    Ev.regWrite (RegW.interruptEnable I_MI),
    Ev.regWrite (RegW.periodicStart ps),
    Ev.regWrite (RegW.control c2)])

/-- The masking test at the entry of `hc_interrupt`:
`(status & ~I_SF) == 0`, i.e. every status bit other than SF is
clear. -/
def statusMasked (st : IntBits) : Bool :=
  !st.so && !st.wdh && !st.ue && !st.rhsc && !st.mi && st.rest == 0

/-- The WDH walk of `hc_interrupt` (hc.c:419-431): traverse the pending
list front to back; each batch whose `batch_is_complete` predicate
holds is unlinked and finished (in traversal order), each other batch
stays.  Returns the remaining list and the finish events. -/
def reap : List Batch → List Batch × List Ev
  | [] => ([], [])
  | b :: rest =>
    let r := reap rest
    if b.complete then (r.1, Ev.batchFinish b.id :: r.2)
    else (b :: r.1, r.2)

/-- Embedding of `hc_interrupt` (hc.c:402-439).  If the status masked
by `~I_SF` is zero, return immediately.  Otherwise: on RHSC delegate to
the root hub; on WDH reap completed pending batches under the guard; on
UE re-run `hc_start`. -/
def hc_interrupt (st : IntBits) (s : HcState) : HcState × List Ev :=
  if statusMasked st then
    (s, [])
  else
    let evRh : List Ev := if st.rhsc then [Ev.rhInterrupt] else []
    let wdh :=
      if st.wdh then
        let r := reap s.pending
        ({ s with pending := r.1 }, [Ev.lock] ++ r.2 ++ [Ev.unlock])
      else (s, ([] : List Ev))
    let ue :=
      if st.ue then hc_start wdh.1
      else (wdh.1, ([] : List Ev))
    (ue.1, evRh ++ wdh.2 ++ ue.2)

/-- Embedding of `hc_gain_control` (hc.c:466-521).  If the revision
register reports legacy support, mask the legacy emulation register
down to its gate-A20 bit.  If interrupt-routing is set (SMM owns the
device), request ownership change via OCR and spin until the hardware
clears IR (post-state: IR clear, as the claims' precondition assumes),
then set the functional state to RESET and sleep 50 ms.  Otherwise, if
the functional state is not RESET, either leave an OPERATIONAL
controller running or resume a suspended one (RESUME, 20 ms).
Otherwise hold RESET for 50 ms. -/
def hc_gain_control (regs : OhciRegs) : OhciRegs × List Ev :=
  let p1 : OhciRegs × List Ev :=
    if regs.revision_legacy then
      ({ regs with legacy_emulation := regs.legacy_emulation &&& 0x100 },
       [Ev.regWrite (RegW.legacyEmulation (regs.legacy_emulation &&& 0x100))])
    else (regs, [])
  let regs1 := p1.1
  if regs1.control.ir then
    let cs := { regs1.command_status with ocr := true }
    let cReset := { regs1.control with ir := false, hcfs := C_HCFS_RESET }
    ({ regs1 with command_status := cs, control := cReset },
     p1.2 ++ [Ev.regWrite (RegW.commandStatus cs),
              Ev.regWrite (RegW.control cReset), Ev.sleep 50000])
  else
    let hcStatus := regs1.control.hcfs
    if hcStatus ≠ C_HCFS_RESET then
      if hcStatus = C_HCFS_OPERATIONAL then
        (regs1, p1.2)
      else
        let cRes := { regs1.control with hcfs := C_HCFS_RESUME }
        ({ regs1 with control := cRes },
         p1.2 ++ [Ev.regWrite (RegW.control cRes), Ev.sleep 20000])
    else
      (regs1, p1.2 ++ [Ev.sleep 50000])

/-- Events that the spec's shared-resource policy says must happen under
the instance guard: endpoint-list mutations and writes to the control
register (whose list-enable bit group lives there). -/
def needsGuard : Ev → Bool
  | Ev.listAdd _ _ => true
  | Ev.listRemove _ _ => true
  | Ev.regWrite (RegW.control _) => true
  | _ => false

/-- Check of a trace against the guard discipline, starting from the
given lock depth: every event classified by `needsGuard` must occur at a
positive lock depth. -/
def guardedFrom : Nat → List Ev → Bool
  | _, [] => true
  | d, Ev.lock :: r => guardedFrom (d + 1) r
  | d, Ev.unlock :: r => guardedFrom (d - 1) r
  | d, e :: r => (!needsGuard e || decide (0 < d)) && guardedFrom d r

/-- Number of events of a trace satisfying a predicate. -/
def countEv (p : Ev → Bool) (tr : List Ev) : Nat :=
  (tr.filter p).length

/-- Guard acquisitions. -/
def isLock : Ev → Bool
  | Ev.lock => true
  | _ => false

/-- Endpoint-list mutations. -/
def isListMut : Ev → Bool
  | Ev.listAdd _ _ => true
  | Ev.listRemove _ _ => true
  | _ => false

/-- Register writes of any kind. -/
def isRegWrite : Ev → Bool
  | Ev.regWrite _ => true
  | _ => false

/-- Writes to a list-current register (control-current or
bulk-current). -/
def isCurrentWrite : Ev → Bool
  | Ev.regWrite (RegW.controlCurrent _) => true
  | Ev.regWrite (RegW.bulkCurrent _) => true
  | _ => false

/-- Batch completion callbacks. -/
def isBatchFinish : Ev → Bool
  | Ev.batchFinish _ => true
  | _ => false

/-- Endpoint record creations (`endpoint_get`). -/
def isEpCreate : Ev → Bool
  | Ev.epCreate => true
  | _ => false

/-- Endpoint record destructions (`endpoint_destroy`). -/
def isEpDestroy : Ev → Bool
  | Ev.epDestroy => true
  | _ => false

/-- Hardware descriptor assignments (`hcd_endpoint_assign`). -/
def isHcdAssign : Ev → Bool
  | Ev.hcdAssign => true
  | _ => false

/-- Hardware descriptor releases (`hcd_endpoint_clear`). -/
def isHcdClear : Ev → Bool
  | Ev.hcdClear => true
  | _ => false

/-- Registrar registrations. -/
def isEpRegister : Ev → Bool
  | Ev.epRegister => true
  | _ => false

/-- Registrar unregistrations. -/
def isEpUnregister : Ev → Bool
  | Ev.epUnregister => true
  | _ => false

/-- Address allocations (`device_keeper_get_free_address` succeeding). -/
def isAddrAlloc : Ev → Bool
  | Ev.addrAlloc => true
  | _ => false

/-- Address releases (`usb_device_keeper_release`). -/
def isAddrRelease : Ev → Bool
  | Ev.addrRelease => true
  | _ => false

/-- Resource balance of a trace: every created endpoint record,
hardware descriptor and registrar entry has been released within the
trace. -/
def resourceBalanced (tr : List Ev) : Bool :=
  countEv isEpCreate tr == countEv isEpDestroy tr &&
  countEv isHcdAssign tr == countEv isHcdClear tr &&
  countEv isEpRegister tr == countEv isEpUnregister tr

/-- Events observable by the hardware: register writes and endpoint-list
mutations. -/
def touchesHw : Ev → Bool
  | Ev.regWrite _ => true
  | Ev.listAdd _ _ => true
  | Ev.listRemove _ _ => true
  | _ => false

/-- Whether a key is present in the registrar. -/
def hasKey (s : HcState) (k : EpKey) : Bool :=
  s.registered.any (fun e => e.key == k)

/-- A concrete register window: operational controller, all list-enable
bits set, vendor frame interval 0x2EDF. -/
def sampleRegs : OhciRegs :=
  { fm_interval := 0x2EDF
    control := { ple := true, ie := true, cle := true, ble := true,
                 hcfs := C_HCFS_OPERATIONAL } }

/-- A concrete instance state used by the witnesses and
counterexamples. -/
def sampleState : HcState :=
  { regs := sampleRegs
    pending := []
    listIso := []
    listInt := []
    listCtrl := []
    listBulk := []
    registered := []
    rh_address := 1
    hcca_pa := 0x1000
    ctrl_head_pa := 0x2000
    bulk_head_pa := 0x3000 }

/-- Collaborator oracle on which every call of `hc_add_endpoint`
succeeds. -/
def envOK : AddEnv := { ep_ok := true, hcd_ok := true, register_ret := EOK }

/-- A concrete control endpoint key (addr=2, ep=0, both directions). -/
def keyC : EpKey := { addr := 2, ep := 0, dir := UsbDirection.both }

/-- A concrete bulk endpoint key (addr=3, ep=1, out). -/
def keyB : EpKey := { addr := 3, ep := 1, dir := UsbDirection.dirOut }

/-- A concrete pending set for the writeback-done scenarios: batch 1 is
complete, batch 2 is not (spec scenario S4). -/
def s4State : HcState :=
  { sampleState with pending :=
      [{ id := 1, address := 2, tt := UsbTransferType.control, complete := true },
       { id := 2, address := 2, tt := UsbTransferType.bulk, complete := false }] }

/-- hc_start does not touch the pending-batch list. -/
theorem hc_start_pending (s : HcState) : (hc_start s).1.pending = s.pending := by
  simp [hc_start]

/-- hc_start emits only register writes. -/
theorem hc_start_trace_regWrites (s : HcState) :
    ((hc_start s).2).all (fun e => isRegWrite e) = true := by
  simp [hc_start, isRegWrite]

/-- The WDH walk keeps exactly the incomplete batches, in order, and
finishes exactly the complete ones, in order. -/
theorem reap_eq (l : List Batch) :
    reap l = (l.filter (fun b => !b.complete),
      (l.filter (fun b => b.complete)).map (fun b => Ev.batchFinish b.id)) := by
  induction l with
  | nil => rfl
  | cons b r ih => cases hb : b.complete <;> simp [reap, hb, ih]

/-- C3 counterexample: on a register window whose fm-interval FI field
is 0x2EDF, `hc_start` leaves 0x2A27 in periodic-start — the integer
computation `(0x2EDF / 10) * 9` — and not 0x2A2E as the claim states. -/
theorem hc_start_periodic_start_cex :
    (hc_start sampleState).1.regs.periodic_start = 0x2A27 ∧
    ¬ (hc_start sampleState).1.regs.periodic_start = 0x2A2E := by
  decide

/-- C3 (amended): `hc_start` sets periodic-start to `(FI / 10) * 9` of
the snapshotted frame-interval field, with integer division; when the
FI field equals 0x2EDF the register afterwards holds 0x2A27. -/
theorem hc_start_periodic_start (s : HcState)
    (h : (s.regs.fm_interval >>> FMI_FI_SHIFT) &&& FMI_FI_MASK = 0x2EDF) :
    (hc_start s).1.regs.periodic_start = 0x2A27 := by
  simp only [hc_start]
  rw [h]

/-- Witness for `hc_start_periodic_start` at the concrete sample
window (fm-interval = 0x2EDF). -/
theorem hc_start_periodic_start_witness :
    (hc_start sampleState).1.regs.periodic_start = 0x2A27 :=
  hc_start_periodic_start sampleState (by decide)

/-- C4: after `hc_start` returns, the interrupt-enable state has all of
SO, WDH, UE, RHSC and MI enabled: the handled-interrupt mask is written
first and the master-interrupt-enable bit is set by the second write. -/
theorem hc_start_enables_interrupts (s : HcState) :
    (hc_start s).1.regs.interrupt_enable.so = true ∧
    (hc_start s).1.regs.interrupt_enable.wdh = true ∧
    (hc_start s).1.regs.interrupt_enable.ue = true ∧
    (hc_start s).1.regs.interrupt_enable.rhsc = true ∧
    (hc_start s).1.regs.interrupt_enable.mi = true := by
  simp [hc_start, ieWriteSet, OHCI_USED_INTERRUPTS, I_MI]

/-- C8: invoking `hc_interrupt` with a status whose only possibly-set
bit is SF (which covers status = 0) is a no-op: the state is unchanged
and no event — no callback, no register write — is emitted. -/
theorem hc_interrupt_sf_noop (s : HcState) (st : IntBits)
    (h1 : st.so = false) (h2 : st.wdh = false) (h3 : st.ue = false)
    (h4 : st.rhsc = false) (h5 : st.mi = false) (h6 : st.rest = 0) :
    hc_interrupt st s = (s, []) := by
  simp [hc_interrupt, statusMasked, h1, h2, h3, h4, h5, h6]

/-- Witness for `hc_interrupt_sf_noop` at status = SF-only. -/
theorem hc_interrupt_sf_noop_witness :
    hc_interrupt { sf := true } sampleState = (sampleState, []) :=
  hc_interrupt_sf_noop sampleState { sf := true } rfl rfl rfl rfl rfl rfl

/-- C6: after `hc_gain_control` (with the SMM spin modelled by its
post-state, the hardware having cleared interrupt-routing once
ownership change was requested), the functional state is OPERATIONAL,
RESET or RESUME, and the interrupt-routing bit is clear. -/
theorem hc_gain_control_handoff (regs : OhciRegs) :
    ((hc_gain_control regs).1.control.hcfs = C_HCFS_OPERATIONAL ∨
     (hc_gain_control regs).1.control.hcfs = C_HCFS_RESET ∨
     (hc_gain_control regs).1.control.hcfs = C_HCFS_RESUME) ∧
    (hc_gain_control regs).1.control.ir = false := by
  unfold hc_gain_control
  by_cases hl : regs.revision_legacy <;>
    cases hir : regs.control.ir <;>
    by_cases h0 : regs.control.hcfs = C_HCFS_RESET <;>
    by_cases h2 : regs.control.hcfs = C_HCFS_OPERATIONAL <;>
    simp_all [C_HCFS_RESET, C_HCFS_OPERATIONAL, C_HCFS_RESUME]

/-- C5: for every pending-batch set and every status with WDH set,
`hc_interrupt` walks the pending set between acquiring and releasing
the guard, finishes exactly the batches whose completion predicate is
true (in traversal order), and leaves exactly the incomplete batches
pending, in their original order. -/
theorem hc_interrupt_wdh_reaps (s : HcState) (st : IntBits)
    (h : st.wdh = true) :
    (hc_interrupt st s).1.pending =
      s.pending.filter (fun b => !b.complete) ∧
    (hc_interrupt st s).2 =
      (if st.rhsc then [Ev.rhInterrupt] else []) ++
      ([Ev.lock] ++
        (s.pending.filter (fun b => b.complete)).map
          (fun b => Ev.batchFinish b.id) ++
        [Ev.unlock]) ++
      (if st.ue then
        (hc_start { s with pending := s.pending.filter (fun b => !b.complete) }).2
       else []) := by
  have hm : statusMasked st = false := by simp [statusMasked, h]
  by_cases hue : st.ue <;>
    simp [hc_interrupt, hm, h, hue, reap_eq, hc_start_pending]

/-- Witness for `hc_interrupt_wdh_reaps`: WDH with one complete and one
incomplete batch pending; only the incomplete batch remains. -/
theorem hc_interrupt_wdh_reaps_witness :
    (hc_interrupt { wdh := true } s4State).1.pending =
      s4State.pending.filter (fun b => !b.complete) ∧
    (hc_interrupt { wdh := true } s4State).1.pending =
      [{ id := 2, address := 2, tt := UsbTransferType.bulk, complete := false }] := by
  have h := hc_interrupt_wdh_reaps s4State { wdh := true } rfl
  exact ⟨h.1, by rw [h.1]; decide⟩

/-- C10: when `hc_interrupt` handles a status with UE set and WDH
clear, the pending-batch set is unchanged by the restart, and no
completion callback fires anywhere in the trace. -/
theorem hc_interrupt_ue_preserves_pending (s : HcState) (st : IntBits)
    (hue : st.ue = true) (hw : st.wdh = false) :
    (hc_interrupt st s).1.pending = s.pending ∧
    ((hc_interrupt st s).2).all (fun e => !isBatchFinish e) = true := by
  have hm : statusMasked st = false := by simp [statusMasked, hue]
  by_cases hrh : st.rhsc <;>
    simp [hc_interrupt, hm, hue, hw, hrh, hc_start, isBatchFinish]

/-- Witness for `hc_interrupt_ue_preserves_pending`: UE-only status on
a state with two in-flight batches. -/
theorem hc_interrupt_ue_preserves_pending_witness :
    (hc_interrupt { ue := true } s4State).1.pending = s4State.pending ∧
    ((hc_interrupt { ue := true } s4State).2).all
      (fun e => !isBatchFinish e) = true :=
  hc_interrupt_ue_preserves_pending s4State { ue := true } rfl rfl

/-- C9: `hc_schedule` is total and always returns EOK.  A batch
addressed to the root hub is forwarded to the root-hub collaborator
with no state change and no register write; any other batch is
appended to the pending set under the guard, committed, and the
control/bulk list-filled bit of command/status is set exactly for
control/bulk transfer types. -/
theorem hc_schedule_total (s : HcState) (b : Batch) :
    (hc_schedule b s).1 = EOK ∧
    (b.address = s.rh_address →
      (hc_schedule b s).2.1 = s ∧
      (hc_schedule b s).2.2 = [Ev.rhRequest b.id]) ∧
    (b.address ≠ s.rh_address →
      (hc_schedule b s).2.1.pending = s.pending ++ [b] ∧
      (hc_schedule b s).2.1.regs.command_status.clf =
        (s.regs.command_status.clf || b.tt == UsbTransferType.control) ∧
      (hc_schedule b s).2.1.regs.command_status.blf =
        (s.regs.command_status.blf || b.tt == UsbTransferType.bulk) ∧
      (hc_schedule b s).2.2 =
        [Ev.lock, Ev.batchCommit b.id] ++
        (match b.tt with
         | UsbTransferType.control =>
           [Ev.regWrite (RegW.commandStatus
             { s.regs.command_status with clf := true })]
         | UsbTransferType.bulk =>
           [Ev.regWrite (RegW.commandStatus
             { s.regs.command_status with blf := true })]
         | _ => []) ++ [Ev.unlock]) := by
  by_cases h : b.address = s.rh_address
  · simp [hc_schedule, h]
  · rcases b with ⟨bid, baddr, btt, bc⟩
    cases btt <;> simp_all [hc_schedule]

/-- A non-root-hub control batch used as concrete scheduling input. -/
def b9 : Batch := { id := 7, address := 5, tt := UsbTransferType.control,
                    complete := false }

/-- Witness for `hc_schedule_total`: scheduling a non-root control
batch succeeds and appends it to the pending set. -/
theorem hc_schedule_total_witness :
    (hc_schedule b9 sampleState).1 = EOK ∧
    (hc_schedule b9 sampleState).2.1.pending =
      sampleState.pending ++ [b9] :=
  ⟨(hc_schedule_total sampleState b9).1,
   ((hc_schedule_total sampleState b9).2.2 (by decide)).1⟩

/-- C1 counterexample: a successful `hc_add_endpoint` call (control
endpoint, all collaborators succeeding) mutates the control endpoint
list and writes the enable-bit group of the control register without
the guard ever being held — its trace fails the guard discipline from
lock depth 0. -/
theorem hc_add_endpoint_unguarded_cex :
    (hc_add_endpoint envOK keyC UsbTransferType.control 64 0 0
      sampleState).1 = EOK ∧
    countEv isListMut (hc_add_endpoint envOK keyC UsbTransferType.control
      64 0 0 sampleState).2.2 = 1 ∧
    guardedFrom 0 (hc_add_endpoint envOK keyC UsbTransferType.control
      64 0 0 sampleState).2.2 = false := by
  decide

/-- C1 (amended): `hc_remove_endpoint` performs all of its endpoint-list
mutations and control-register (enable-bit) writes with the guard held,
while `hc_add_endpoint` acquires the guard on no call at all — its list
insertion and enable-bit writes run unguarded. -/
theorem hc_remove_guarded_hc_add_unguarded :
    (∀ key s, guardedFrom 0 (hc_remove_endpoint key s).2.2 = true) ∧
    (∀ env key tt mps size interval s,
      countEv isLock
        (hc_add_endpoint env key tt mps size interval s).2.2 = 0) := by
  constructor
  · intro key s
    unfold hc_remove_endpoint
    rcases hf : s.registered.find? (fun e => e.key == key) with _ | e
    · simp [hf, guardedFrom]
    · cases hh : e.hasHcd <;> cases htt : e.tt <;>
        simp [hf, hh, htt, enqueue, guardedFrom, needsGuard]
  · intro env key tt mps size interval s
    unfold hc_add_endpoint
    by_cases h1 : env.ep_ok = false
    · simp [h1, countEv]
    · by_cases h2 : env.hcd_ok = false
      · simp [h1, h2, countEv, isLock]
      · by_cases h3 : env.register_ret ≠ EOK
        · simp [h1, h2, h3, countEv, isLock]
        · cases tt <;> simp [h1, h2, h3, enqueue, countEv, isLock]

/-- The enable-toggle trace as the spec's protocol describes it, around
a given list mutation: clear the relevant enable bit(s) of the control
register, mutate, re-set them; the control type additionally zeroes the
control-current register between the mutation and the re-enable, the
bulk type writes no list-current register, and the periodic types
toggle the combined PLE and IE pair. -/
def toggleSpec (mutEv : Ev) (tt : UsbTransferType) (c : ControlReg) :
    List Ev :=
  match tt with
  | .control =>
    [Ev.regWrite (RegW.control { c with cle := false }), mutEv,
     Ev.regWrite (RegW.controlCurrent 0),
     Ev.regWrite (RegW.control { c with cle := true })]
  | .bulk =>
    [Ev.regWrite (RegW.control { c with ble := false }), mutEv,
     Ev.regWrite (RegW.control { c with ble := true })]
  | .isochronous =>
    [Ev.regWrite (RegW.control { c with ple := false, ie := false }), mutEv,
     Ev.regWrite (RegW.control { c with ple := true, ie := true })]
  | .interrupt =>
    [Ev.regWrite (RegW.control { c with ple := false, ie := false }), mutEv,
     Ev.regWrite (RegW.control { c with ple := true, ie := true })]

/-- C2 counterexample: a successful bulk `hc_add_endpoint` performs no
list-current write at all — the bulk path only toggles BLE around the
insertion, contradicting the claim that bulk zeroes its list-current
register between the mutation and the re-enable. -/
theorem hc_add_endpoint_bulk_no_current_cex :
    (hc_add_endpoint envOK keyB UsbTransferType.bulk 8 0 0
      sampleState).1 = EOK ∧
    countEv isCurrentWrite (hc_add_endpoint envOK keyB
      UsbTransferType.bulk 8 0 0 sampleState).2.2 = 0 := by
  decide

/-- C2 (amended): every successful insertion and every removal of an
endpoint with a hardware descriptor follows the enable-toggle protocol
of `toggleSpec`: enable bit(s) cleared before the mutation and re-set
after it; the control type zeroes control-current between mutation and
re-enable; the bulk type performs no list-current write; isochronous
and interrupt toggle the combined PLE|IE pair. -/
theorem enable_toggle_protocol :
    (∀ env key tt mps size interval s,
      env.ep_ok = true → env.hcd_ok = true → env.register_ret = EOK →
      (hc_add_endpoint env key tt mps size interval s).2.2 =
        [Ev.epCreate, Ev.hcdAssign, Ev.epRegister] ++
        toggleSpec (Ev.listAdd tt key) tt s.regs.control) ∧
    (∀ key s e,
      s.registered.find? (fun x => x.key == key) = some e →
      e.hasHcd = true →
      (hc_remove_endpoint key s).2.2 =
        [Ev.lock] ++ toggleSpec (Ev.listRemove e.tt key) e.tt
          s.regs.control ++
        [Ev.hcdClear, Ev.epUnregister, Ev.unlock]) := by
  constructor
  · intro env key tt mps size interval s h1 h2 h3
    cases tt <;> simp [hc_add_endpoint, h1, h2, h3, enqueue, toggleSpec]
  · intro key s e hf hh
    unfold hc_remove_endpoint
    rw [hf]
    cases htt : e.tt <;> simp [hh, htt, enqueue, toggleSpec]

/-- Witness for `enable_toggle_protocol`: the concrete control-endpoint
insertion of scenario S3 produces exactly the protocol trace. -/
theorem enable_toggle_protocol_witness :
    (hc_add_endpoint envOK keyC UsbTransferType.control 64 0 0
      sampleState).2.2 =
      [Ev.epCreate, Ev.hcdAssign, Ev.epRegister] ++
      toggleSpec (Ev.listAdd UsbTransferType.control keyC)
        UsbTransferType.control sampleState.regs.control :=
  enable_toggle_protocol.1 envOK keyC UsbTransferType.control 64 0 0
    sampleState rfl rfl rfl

/-- If no entry of a registrar list matches a key, `find?` on it fails. -/
theorem find?_key_none {l : List RegEntry} {k : EpKey}
    (h : ∀ e ∈ l, (e.key == k) = false) :
    l.find? (fun e => e.key == k) = none := by
  induction l with
  | nil => rfl
  | cons a r ih =>
    have ha : (a.key == k) = false := h a (List.mem_cons_self a r)
    simp only [List.find?_cons, ha]
    exact ih (fun e he => h e (List.mem_cons_of_mem a he))

/-- Lookup on a list extended by a matching entry, none of whose other
entries match, returns the appended entry. -/
theorem find?_key_append {l : List RegEntry} {k : EpKey}
    (h : ∀ e ∈ l, (e.key == k) = false) (x : RegEntry)
    (hx : (x.key == k) = true) :
    (l ++ [x]).find? (fun e => e.key == k) = some x := by
  induction l with
  | nil => simp only [List.nil_append, List.find?_cons, hx]
  | cons a r ih =>
    have ha : (a.key == k) = false := h a (List.mem_cons_self a r)
    simp only [List.cons_append, List.find?_cons, ha]
    exact ih (fun e he => h e (List.mem_cons_of_mem a he))

/-- Unregistering the only matching entry of an extended registrar list
restores the original list. -/
theorem filter_key_append {l : List RegEntry} {k : EpKey}
    (h : ∀ e ∈ l, (e.key == k) = false) (x : RegEntry)
    (hx : (x.key == k) = true) :
    (l ++ [x]).filter (fun e => !(e.key == k)) = l := by
  induction l with
  | nil => simp only [List.nil_append, List.filter_cons, hx, Bool.not_true,
      Bool.false_eq_true, if_false, List.filter_nil]
  | cons a r ih =>
    have ha : (a.key == k) = false := h a (List.mem_cons_self a r)
    simp only [List.cons_append, List.filter_cons, ha, Bool.not_false, if_true]
    rw [ih (fun e he => h e (List.mem_cons_of_mem a he))]

/-- An absent key matches no registrar entry. -/
theorem hasKey_false {s : HcState} {k : EpKey} (h : hasKey s k = false) :
    ∀ e ∈ s.registered, (e.key == k) = false := by
  intro e he
  cases hv : (e.key == k) with
  | false => rfl
  | true =>
    exfalso
    have ht : hasKey s k = true := by
      simp only [hasKey, List.any_eq_true]
      exact ⟨e, he, hv⟩
    rw [ht] at h
    exact Bool.noConfusion h

/-- C7: `hc_add_endpoint` is atomic on failure — whenever an allocation
or the registrar's registration fails it leaves the instance state
unchanged, releases every resource it created (endpoint record and
hardware descriptor balance out in the trace), mutates no endpoint
list and writes no register; and in `hc_register_hub`, on failure of
endpoint-zero addition, match-id addition or binding, the previously
added endpoint is unregistered and the allocated address released
before the error is returned (allocations and releases balance, and
the registrar content is restored). -/
theorem add_and_hub_rollback :
    (∀ env key tt mps size interval s,
      (hc_add_endpoint env key tt mps size interval s).1 ≠ EOK →
      (hc_add_endpoint env key tt mps size interval s).2.1 = s ∧
      resourceBalanced
        (hc_add_endpoint env key tt mps size interval s).2.2 = true ∧
      ((hc_add_endpoint env key tt mps size interval s).2.2).all
        (fun e => !touchesHw e) = true) ∧
    (∀ env s,
      hasKey s { addr := env.free_address, ep := 0,
                 dir := UsbDirection.both } = false →
      (hc_register_hub env s).1 ≠ EOK →
      countEv isAddrAlloc (hc_register_hub env s).2.2 =
        countEv isAddrRelease (hc_register_hub env s).2.2 ∧
      countEv isEpRegister (hc_register_hub env s).2.2 =
        countEv isEpUnregister (hc_register_hub env s).2.2 ∧
      (hc_register_hub env s).2.1.registered = s.registered) := by
  constructor
  · intro env key tt mps size interval s hne
    unfold hc_add_endpoint at hne ⊢
    by_cases h1 : env.ep_ok = false
    · simp [h1, resourceBalanced, countEv, touchesHw]
    · by_cases h2 : env.hcd_ok = false
      · simp [h1, h2, resourceBalanced, countEv, touchesHw,
          isEpCreate, isEpDestroy, isHcdAssign, isHcdClear,
          isEpRegister, isEpUnregister]
      · by_cases h3 : env.register_ret = EOK
        · simp [h1, h2, h3] at hne
        · simp [h1, h2, h3, resourceBalanced, countEv, touchesHw,
            isEpCreate, isEpDestroy, isHcdAssign, isHcdClear,
            isEpRegister, isEpUnregister]
  · intro env s hfresh hne
    have hkeys := hasKey_false hfresh
    have hen : ENOMEM ≠ EOK := by decide
    have hx : (({ addr := env.free_address, ep := 0,
                  dir := UsbDirection.both } : EpKey) ==
               ({ addr := env.free_address, ep := 0,
                  dir := UsbDirection.both } : EpKey)) = true := by simp
    unfold hc_register_hub at hne ⊢
    by_cases hfa : env.free_address ≤ 0
    · simp [hfa, countEv]
    · have hfind := find?_key_none hkeys
      by_cases h1 : env.add_env.ep_ok = false
      · simp [hfa, hc_add_endpoint, h1, hc_remove_endpoint, hfind, hen,
          countEv, isAddrAlloc, isAddrRelease, isEpRegister, isEpUnregister]
      · by_cases h2 : env.add_env.hcd_ok = false
        · simp [hfa, hc_add_endpoint, h1, h2, hc_remove_endpoint, hfind, hen,
            countEv, isAddrAlloc, isAddrRelease, isEpRegister, isEpUnregister]
        · by_cases h3 : env.add_env.register_ret = EOK
          · have hfind2 := find?_key_append hkeys
              ({ key := { addr := env.free_address, ep := 0,
                          dir := UsbDirection.both },
                 tt := UsbTransferType.control, hasHcd := true } : RegEntry) hx
            have hfilter := filter_key_append hkeys
              ({ key := { addr := env.free_address, ep := 0,
                          dir := UsbDirection.both },
                 tt := UsbTransferType.control, hasHcd := true } : RegEntry) hx
            by_cases h4 : env.match_ret = EOK
            · by_cases h5 : env.bind_ret = EOK
              · simp [hfa, hc_add_endpoint, h1, h2, h3, h4, h5] at hne
              · simp [hfa, hc_add_endpoint, h1, h2, h3, h4, h5, enqueue,
                  hc_remove_endpoint, hfind2, hfilter, addToLists,
                  removeFromLists, countEv, isAddrAlloc, isAddrRelease,
                  isEpRegister, isEpUnregister]
            · simp [hfa, hc_add_endpoint, h1, h2, h3, h4, enqueue,
                hc_remove_endpoint, hfind2, hfilter, addToLists,
                removeFromLists, countEv, isAddrAlloc, isAddrRelease,
                isEpRegister, isEpUnregister]
          · simp [hfa, hc_add_endpoint, h1, h2, h3, hc_remove_endpoint,
              hfind, hen, countEv, isAddrAlloc, isAddrRelease,
              isEpRegister, isEpUnregister]

/-- Collaborator oracle on which the registrar rejects the endpoint
(bandwidth exhaustion / out of memory). -/
def envFailReg : AddEnv := { ep_ok := true, hcd_ok := true,
                             register_ret := ENOMEM }

/-- Hub-registration oracle on which the match-id addition fails after
a successful endpoint-zero addition. -/
def hubEnvMatchFail : HubEnv :=
  { free_address := 2, add_env := envOK, match_ret := ENOMEM,
    bind_ret := EOK }

/-- Witness for `add_and_hub_rollback`: a registrar rejection during
`hc_add_endpoint` and a failing match-id addition during
`hc_register_hub`, both rolled back. -/
theorem add_and_hub_rollback_witness :
    ((hc_add_endpoint envFailReg keyC UsbTransferType.control 64 0 0
        sampleState).2.1 = sampleState ∧
     resourceBalanced (hc_add_endpoint envFailReg keyC
        UsbTransferType.control 64 0 0 sampleState).2.2 = true ∧
     ((hc_add_endpoint envFailReg keyC UsbTransferType.control 64 0 0
        sampleState).2.2).all (fun e => !touchesHw e) = true) ∧
    (countEv isAddrAlloc
        (hc_register_hub hubEnvMatchFail sampleState).2.2 =
       countEv isAddrRelease
        (hc_register_hub hubEnvMatchFail sampleState).2.2 ∧
     countEv isEpRegister
        (hc_register_hub hubEnvMatchFail sampleState).2.2 =
       countEv isEpUnregister
        (hc_register_hub hubEnvMatchFail sampleState).2.2 ∧
     (hc_register_hub hubEnvMatchFail sampleState).2.1.registered =
       sampleState.registered) :=
  ⟨add_and_hub_rollback.1 envFailReg keyC UsbTransferType.control 64 0 0
     sampleState (by decide),
   add_and_hub_rollback.2 hubEnvMatchFail sampleState (by decide)
     (by decide)⟩
